import Mathlib

/-!
Verification of the Ghost-Branch Workflow Engine of ViraithIDE.

The engine lives in two parallel implementations:
  * `src-tauri/src/git.rs`          — the `GhostMode` methods;
  * `src-tauri/src/commands/git.rs` — the tauri command layer.

We give a shallow embedding of both.  A repository is modelled as an explicit
state (`Repo`): local branches in enumeration order, a commit store, the branch
HEAD points at, and the working tree.  The libgit2 primitives the code calls
(`revparse_single`, `checkout_tree`, `set_head`, `branch`, `find_branch` +
`delete`, `commit`, `merge_commits`) are modelled as small state transformers;
the three-way merge algorithm and the patch renderer are library code, not code
of this repository, so they are taken as parameters (`MergeFn`, `DiffFn`) of
the operations that call them.  Rust's decimal rendering of an `i64`
(`format!` on a timestamp) is embedded as `intRepr`.

Errors in the source are plain strings; the specification assigns each failing
call site a taxonomy name (`NoTrunkError`, `RevisionNotFoundError`,
`BranchExistsError`, `MergeConflictError`, ...).  The embedding uses the
taxonomy name of each site: in particular the `revparse_single("main")
.or_else(revparse_single("master"))` failure site is `noTrunkError`, and a
failed `revparse_single`/`find_branch` on a caller-supplied name is
`revisionNotFoundError`.  Operations return `MResult`, which carries the
post-state also on error: a failing git operation leaves the repository in
whatever state the steps so far produced.
-/

/-! ## Decimal rendering of integers (Rust `format!` on an `i64`) -/

/-- Decimal digits of `n`, least significant first, via repeated division by
ten; the first argument is structural fuel (`n` itself is always enough). -/
def natDigitsRevGo : Nat → Nat → List Char
  | _, 0 => []
  | 0, _ + 1 => []
  | fuel + 1, n + 1 => Nat.digitChar ((n + 1) % 10) :: natDigitsRevGo fuel ((n + 1) / 10)

/-- Decimal digits of `n`, least significant first (empty for `0`). -/
def natDigitsRev (n : Nat) : List Char :=
  natDigitsRevGo n n

/-- Decimal rendering of a natural number. -/
def natRepr (n : Nat) : String :=
  if n = 0 then "0" else String.mk (natDigitsRev n).reverse

/-- Decimal rendering of an integer, `-` sign for negatives: the embedding of
Rust's `i64` display used on `chrono` epoch-second timestamps. -/
def intRepr (i : Int) : String :=
  if i < 0 then "-" ++ natRepr i.natAbs else natRepr i.natAbs

/-! ## Branch naming policy (spec section 4.2, inlined at each call site of the
source: the name built by `create_ghost_branch` and the predicate used by the
branch-listing filters) -/

/-- Byte/char-prefix test: the embedding of Rust's `str::starts_with`. -/
def strStartsWith (s p : String) : Bool :=
  p.data.isPrefixOf s.data

/-- `make_ghost_name`: the expression
`format!` of `ghost/`, the work-item id, `/`, and the timestamp. -/
def make_ghost_name (work_item_id : String) (created_at : Int) : String :=
  "ghost/" ++ work_item_id ++ "/" ++ intRepr created_at

/-- `is_ghost`: a branch name is ghost iff it starts with `ghost/`. -/
def is_ghost (branch_name : String) : Bool :=
  strStartsWith branch_name "ghost/"

/-! ## Repository model -/

/-- Commit identifier (models a git oid). -/
abbrev CommitId := Nat

/-- A tree: file path to file content, the model of a git tree object. -/
abbrev GitTree := List (String × String)

/-- A commit object: parent list (order observable), message, tree. -/
structure Commit where
  parents : List CommitId
  message : String
  tree : GitTree
deriving DecidableEq

/-- Repository state: local branches (name, tip) in enumeration order, the
commit store, the branch HEAD points at, the working tree, and the next fresh
commit id. -/
structure Repo where
  branches : List (String × CommitId)
  commits : List (CommitId × Commit)
  head : String
  workdir : GitTree
  nextId : CommitId
deriving DecidableEq

/-- The specification's error taxonomy (section 7); the source surfaces
stringified libgit2 errors, one taxonomy member per failing call site. -/
inductive GitError where
  | repositoryError
  | noTrunkError
  | revisionNotFoundError (spec : String)
  | branchExistsError (name : String)
  | mergeConflictError
  | ioError
deriving DecidableEq

/-- Result of a repository operation: value or error, each with the repository
post-state (errors do not roll back whatever mutation already happened). -/
inductive MResult (α : Type) where
  | ok (a : α) (r : Repo)
  | error (e : GitError) (r : Repo)
deriving DecidableEq

/-- The post-state of a result. -/
def MResult.post {α : Type} : MResult α → Repo
  | .ok _ r => r
  | .error _ r => r

/-- Did the operation succeed? -/
def MResult.succeeded {α : Type} : MResult α → Bool
  | .ok _ _ => true
  | .error _ _ => false

/-- Map over the value of a result. -/
def MResult.map {α β : Type} (f : α → β) : MResult α → MResult β
  | .ok a r => .ok (f a) r
  | .error e r => .error e r

/-- Look up a local branch tip by name (first match in enumeration order). -/
def lookupBranch (r : Repo) (name : String) : Option CommitId :=
  (r.branches.find? (fun p => p.1 == name)).map (fun p => p.2)

/-- Look up a commit object by id. -/
def lookupCommit (r : Repo) (id : CommitId) : Option Commit :=
  (r.commits.find? (fun p => p.1 == id)).map (fun p => p.2)

/-- Strip a leading `refs/heads/` from a revision spec (the code passes both
bare branch names and fully qualified refs to `revparse_single`). -/
def stripRefsHeads (s : String) : String :=
  if strStartsWith s "refs/heads/" then String.mk (s.data.drop 11) else s

/-- `Repository::revparse_single` restricted to the specs the engine uses:
a branch name or `refs/heads/<name>`, resolved to the branch tip commit.
Read-only. -/
def revparseSingle (r : Repo) (spec : String) : Except GitError CommitId :=
  match lookupBranch r (stripRefsHeads spec) with
  | some id => Except.ok id
  | none => Except.error (GitError.revisionNotFoundError spec)

/-- `repo.head().peel_to_commit()`: the tip of the branch HEAD points at. -/
def headCommit (r : Repo) : Except GitError CommitId :=
  match lookupBranch r r.head with
  | some id => Except.ok id
  | none => Except.error GitError.repositoryError

/-- `repo.checkout_tree(obj)`: replace the working tree with the tree of the
commit the object peels to.  Fails only if the object store is corrupt. -/
def checkoutTree (r : Repo) (id : CommitId) : MResult Unit :=
  match lookupCommit r id with
  | some c => .ok () { r with workdir := c.tree }
  | none => .error GitError.ioError r

/-- `repo.set_head(refname)`: point HEAD at the given branch. -/
def setHead (r : Repo) (refname : String) : Repo :=
  { r with head := stripRefsHeads refname }

/-- `repo.branch(name, commit, false)`: create a branch reference; with
`force = false` an existing reference of the same name is an error. -/
def createBranch (r : Repo) (name : String) (target : CommitId) : MResult Unit :=
  match lookupBranch r name with
  | some _ => .error (GitError.branchExistsError name) r
  | none => .ok () { r with branches := r.branches ++ [(name, target)] }

/-- `repo.find_branch(name, Local)` followed by `Branch::delete()`: remove the
branch reference; finding a nonexistent branch is an error.  The working tree
and the commit store are untouched. -/
def deleteBranch (r : Repo) (name : String) : MResult Unit :=
  match lookupBranch r name with
  | some _ => .ok () { r with branches := r.branches.filter (fun p => p.1 != name) }
  | none => .error (GitError.revisionNotFoundError name) r

/-- Point every branch entry named `name` at `id` (used by `commit` below to
advance the ref HEAD points at). -/
def updateBranch (bs : List (String × CommitId)) (name : String) (id : CommitId) :
    List (String × CommitId) :=
  bs.map (fun p => if p.1 == name then (p.1, id) else p)

/-- `repo.commit(Some("HEAD"), sig, sig, message, tree, parents)`: append a new
commit object with the given parents and advance the branch HEAD points at.
The working tree is not touched. -/
def commitOnHead (r : Repo) (message : String) (tree : GitTree) (parents : List CommitId) :
    CommitId × Repo :=
  (r.nextId,
    { r with
      commits := r.commits ++ [(r.nextId, { parents := parents, message := message, tree := tree })]
      branches := updateBranch r.branches r.head r.nextId
      nextId := r.nextId + 1 })

/-- The in-memory index produced by `Repository::merge_commits`: a candidate
tree and a conflict flag. -/
structure MergeIndex where
  tree : GitTree
  hasConflicts : Bool

/-- The semantics of libgit2's `merge_commits` (library code, not code of this
repository): any function from the two commits being merged to an index. -/
abbrev MergeFn := CommitId → CommitId → MergeIndex

/-- The semantics of libgit2's `diff_tree_to_tree` + patch printing (library
code, not code of this repository): any function from two trees to patch
text. -/
abbrev DiffFn := GitTree → GitTree → String

/-- Lines 118-121 / 48-52 of the two merge implementations:
`revparse_single("main").or_else(revparse_single("master"))`.  The site where
both probes fail is the taxonomy's `NoTrunkError`. -/
def trunkObj (r : Repo) : Except GitError CommitId :=
  match revparseSingle r "main" with
  | Except.ok o => Except.ok o
  | Except.error _ =>
    match revparseSingle r "master" with
    | Except.ok o => Except.ok o
    | Except.error _ => Except.error GitError.noTrunkError

/-- Lines 125-129 / 58-62 of the two merge implementations: re-probe `main`
and name the trunk accordingly. -/
def trunkName (r : Repo) : String :=
  if (revparseSingle r "main").isOk then "main" else "master"

/-- `repo.revparse_single(x)?.peel_to_tree()?`: the tree of the commit a
revision resolves to. -/
def peelToTree (r : Repo) (id : CommitId) : Except GitError GitTree :=
  match lookupCommit r id with
  | some c => Except.ok c.tree
  | none => Except.error GitError.ioError

/-! ## Implementation one: the `GhostMode` methods of `src-tauri/src/git.rs` -/

namespace GhostMode

/-- `GhostMode::create_ghost_branch` (git.rs lines 18-44).  `now` is the value
`chrono` returns for the current wall-clock epoch seconds at line 23. -/
def create_ghost_branch (r : Repo) (card_id : String) (now : Int) : MResult String :=
  -- let head = self.repo.head()?; let commit = head.peel_to_commit()?;
  match headCommit r with
  | Except.error e => .error e r
  | Except.ok commit =>
    -- line 23: branch_name = ghost/ + card_id + / + timestamp
    let branch_name := "ghost/" ++ card_id ++ "/" ++ intRepr now
    -- self.repo.branch(branch_name, commit, false)?
    match createBranch r branch_name commit with
    | .error e r => .error e r
    | .ok _ r =>
      -- let obj = self.repo.revparse_single(refs/heads/ + branch_name)?
      match revparseSingle r ("refs/heads/" ++ branch_name) with
      | Except.error e => .error e r
      | Except.ok obj =>
        -- self.repo.checkout_tree(obj, None)?
        match checkoutTree r obj with
        | .error e r => .error e r
        | .ok _ r =>
          -- self.repo.set_head(refs/heads/ + branch_name)?
          let r := setHead r ("refs/heads/" ++ branch_name)
          .ok branch_name r

/-- `GhostMode::merge_to_main` (git.rs lines 46-118). -/
def merge_to_main (mf : MergeFn) (r : Repo) (ghost_branch : String) : MResult Unit :=
  -- let main = revparse_single(main).or_else(revparse_single(master))?
  match trunkObj r with
  | Except.error e => .error e r
  | Except.ok mainObj =>
    -- self.repo.checkout_tree(main, None)?
    match checkoutTree r mainObj with
    | .error e r => .error e r
    | .ok _ r =>
      -- let main_branch = if revparse_single(main).is_ok then main else master
      let main_branch := trunkName r
      -- self.repo.set_head(refs/heads/ + main_branch)?
      let r := setHead r ("refs/heads/" ++ main_branch)
      -- let ghost_commit = revparse_single(ghost_branch)?.peel_to_commit()?
      match revparseSingle r ghost_branch with
      | Except.error e => .error e r
      | Except.ok ghost_commit =>
        -- let head_commit = self.repo.head()?.peel_to_commit()?
        match headCommit r with
        | Except.error e => .error e r
        | Except.ok head_commit =>
          -- let index = merge_commits(head_commit, ghost_commit, None)?
          let index := mf head_commit ghost_commit
          if index.hasConflicts then
            -- return Err(merge conflicts detected)
            .error GitError.mergeConflictError r
          else
            -- write_tree_to, find_tree, Signature::now, commit(HEAD, ...,
            -- [head_commit, ghost_commit])
            let (_, r) := commitOnHead r
              ("[VIRAITH] Merge ghost branch " ++ ghost_branch)
              index.tree [head_commit, ghost_commit]
            -- find_branch(ghost_branch, Local)?.delete()?
            match deleteBranch r ghost_branch with
            | .error e r => .error e r
            | .ok _ r => .ok () r

/-- `GhostMode::get_diff` (git.rs lines 120-148). -/
def get_diff (df : DiffFn) (r : Repo) (branch1 branch2 : String) : MResult String :=
  match revparseSingle r branch1 with
  | Except.error e => .error e r
  | Except.ok o1 =>
    match peelToTree r o1 with
    | Except.error e => .error e r
    | Except.ok tree1 =>
      match revparseSingle r branch2 with
      | Except.error e => .error e r
      | Except.ok o2 =>
        match peelToTree r o2 with
        | Except.error e => .error e r
        | Except.ok tree2 =>
          -- diff_tree_to_tree + print(Patch)
          .ok (df tree1 tree2) r

/-- The filter loop of `GhostMode::list_ghost_branches` (git.rs lines 156-160):
keep, in enumeration order, the names that start with `ghost/`. -/
def collectGhosts : List (String × CommitId) → List String
  | [] => []
  | (name, _) :: rest =>
    if strStartsWith name "ghost/" then name :: collectGhosts rest
    else collectGhosts rest

/-- `GhostMode::list_ghost_branches` (git.rs lines 150-163). -/
def list_ghost_branches (r : Repo) : MResult (List String) :=
  .ok (collectGhosts r.branches) r

end GhostMode

/-! ## Implementation two: the command layer of `src-tauri/src/commands/git.rs`
(the four functions registered in lib.rs; `Repository::open` on the path has
already happened, yielding the `Repo` state) -/

/-- The `GitBranch` record of commands/git.rs lines 4-10. -/
structure GitBranch where
  name : String
  is_head : Bool
  is_ghost : Bool
  last_commit : Option String
deriving DecidableEq

namespace Commands

/-- The loop body of `get_branches` (commands/git.rs lines 30-48): one record
per local branch, in enumeration order. -/
def buildBranches (r : Repo) : List (String × CommitId) → List GitBranch
  | [] => []
  | (name, cid) :: rest =>
    { name := name
      is_head := name == r.head
      is_ghost := strStartsWith name "ghost/"
      last_commit := (lookupCommit r cid).map (fun c => c.message) }
      :: buildBranches r rest

/-- `get_branches` (commands/git.rs lines 20-51). -/
def get_branches (r : Repo) : MResult (List GitBranch) :=
  .ok (buildBranches r r.branches) r

/-- `create_ghost_branch` (commands/git.rs lines 53-77).  `now` is the value
of `chrono::Utc::now().timestamp()` at line 60. -/
def create_ghost_branch (r : Repo) (card_id : String) (now : Int) : MResult String :=
  match headCommit r with
  | Except.error e => .error e r
  | Except.ok commit =>
    -- line 61: branch_name = ghost/ + card_id + / + timestamp
    let branch_name := "ghost/" ++ card_id ++ "/" ++ intRepr now
    match createBranch r branch_name commit with
    | .error e r => .error e r
    | .ok _ r =>
      match revparseSingle r ("refs/heads/" ++ branch_name) with
      | Except.error e => .error e r
      | Except.ok obj =>
        match checkoutTree r obj with
        | .error e r => .error e r
        | .ok _ r =>
          let r := setHead r ("refs/heads/" ++ branch_name)
          .ok branch_name r

/-- `get_branch_diff` (commands/git.rs lines 79-111). -/
def get_branch_diff (df : DiffFn) (r : Repo) (branch1 branch2 : String) : MResult String :=
  match revparseSingle r branch1 with
  | Except.error e => .error e r
  | Except.ok o1 =>
    match peelToTree r o1 with
    | Except.error e => .error e r
    | Except.ok tree1 =>
      match revparseSingle r branch2 with
      | Except.error e => .error e r
      | Except.ok o2 =>
        match peelToTree r o2 with
        | Except.error e => .error e r
        | Except.ok tree2 =>
          .ok (df tree1 tree2) r

/-- `merge_ghost_branch` (commands/git.rs lines 113-179). -/
def merge_ghost_branch (mf : MergeFn) (r : Repo) (ghost_branch : String) : MResult Unit :=
  match trunkObj r with
  | Except.error e => .error e r
  | Except.ok mainObj =>
    match checkoutTree r mainObj with
    | .error e r => .error e r
    | .ok _ r =>
      let main_branch := trunkName r
      let r := setHead r ("refs/heads/" ++ main_branch)
      match revparseSingle r ghost_branch with
      | Except.error e => .error e r
      | Except.ok ghost_commit =>
        match headCommit r with
        | Except.error e => .error e r
        | Except.ok head_commit =>
          let index := mf head_commit ghost_commit
          if index.hasConflicts then
            .error GitError.mergeConflictError r
          else
            let (_, r) := commitOnHead r
              ("[VIRAITH] Merge ghost branch " ++ ghost_branch)
              index.tree [head_commit, ghost_commit]
            match deleteBranch r ghost_branch with
            | .error e r => .error e r
            | .ok _ r => .ok () r

end Commands

/-! ## The caller-invocable surface (for the delete-operation claim) -/

/-- One invocation of the engine's caller-facing surface: the four commands
registered in lib.rs, plus the (otherwise unreachable) ghost-branch listing of
`GhostMode`.  The arguments are the concrete strings/timestamp of the call. -/
inductive GitCall where
  | getBranchesCall
  | listGhostBranchesCall
  | createGhostBranchCall (card_id : String) (now : Int)
  | getBranchDiffCall (branch1 branch2 : String)
  | mergeGhostBranchCall (ghost_branch : String)

/-- Run one invocation, observing success and the repository post-state. -/
def runCall (mf : MergeFn) (df : DiffFn) (c : GitCall) (r : Repo) : Bool × Repo :=
  match c with
  | .getBranchesCall =>
    let res := Commands.get_branches r
    (res.succeeded, res.post)
  | .listGhostBranchesCall =>
    let res := GhostMode.list_ghost_branches r
    (res.succeeded, res.post)
  | .createGhostBranchCall card_id now =>
    let res := Commands.create_ghost_branch r card_id now
    (res.succeeded, res.post)
  | .getBranchDiffCall branch1 branch2 =>
    let res := Commands.get_branch_diff df r branch1 branch2
    (res.succeeded, res.post)
  | .mergeGhostBranchCall ghost_branch =>
    let res := Commands.merge_ghost_branch mf r ghost_branch
    (res.succeeded, res.post)

/-- The delete contract of spec section 4.3, for a branch-name-indexed family
of invocations: on every repository, the invocation for branch `b` succeeds
when `b` exists and removes exactly the reference `b` (working tree and commit
store untouched), and fails when `b` does not exist. -/
def DeleteContract (mf : MergeFn) (df : DiffFn) (call : String → GitCall) : Prop :=
  ∀ (r : Repo) (b : String),
    ((lookupBranch r b).isSome = true →
      (runCall mf df (call b) r).1 = true ∧
      (runCall mf df (call b) r).2.branches = r.branches.filter (fun p => p.1 != b) ∧
      (runCall mf df (call b) r).2.workdir = r.workdir ∧
      (runCall mf df (call b) r).2.commits = r.commits) ∧
    ((lookupBranch r b) = none → (runCall mf df (call b) r).1 = false)

/-! ## Trunk resolution predicate and concrete fixtures -/

/-- `tn`/`tip` are the trunk name and tip the merge resolves: `main` when it
exists, else `master` (spec section 4.5, step Start). -/
def trunkResolved (r : Repo) (tn : String) (tip : CommitId) : Prop :=
  (lookupBranch r "main" = some tip ∧ tn = "main") ∨
  (lookupBranch r "main" = none ∧ lookupBranch r "master" = some tip ∧ tn = "master")

/-- Merge semantics with no conflicts and an empty candidate tree, used to
instantiate `MergeFn` at concrete witnesses. -/
def mfEmpty : MergeFn := fun _ _ => { tree := [], hasConflicts := false }

/-- Merge semantics reporting conflicts, used at concrete witnesses. -/
def mfConflict : MergeFn := fun _ _ => { tree := [], hasConflicts := true }

/-- Diff semantics used at concrete witnesses. -/
def dfEmpty : DiffFn := fun _ _ => ""

/-- A root commit fixture. -/
def commitInit : Commit :=
  { parents := [], message := "init", tree := [("a.txt", "base")] }

/-- A ghost-branch work commit fixture. -/
def commitWork : Commit :=
  { parents := [0], message := "work", tree := [("a.txt", "changed")] }

/-- Fixture: trunk `main` at the root commit, one ghost branch with one work
commit on top, HEAD on the ghost branch. -/
def repoMain : Repo :=
  { branches := [("main", 0), ("ghost/42/100", 1)]
    commits := [(0, commitInit), (1, commitWork)]
    head := "ghost/42/100"
    workdir := [("a.txt", "changed")]
    nextId := 2 }

/-- Fixture: like `repoMain` but the trunk is named `master`. -/
def repoMaster : Repo :=
  { branches := [("master", 0), ("ghost/42/100", 1)]
    commits := [(0, commitInit), (1, commitWork)]
    head := "ghost/42/100"
    workdir := [("a.txt", "changed")]
    nextId := 2 }

/-- Fixture: a repository whose only branch is `dev` — no trunk at all. -/
def repoNoTrunk : Repo :=
  { branches := [("dev", 0)]
    commits := [(0, commitInit)]
    head := "dev"
    workdir := [("a.txt", "base")]
    nextId := 1 }

/-- Fixture: the four-branch repository of the spec's listing property. -/
def repoFour : Repo :=
  { branches := [("main", 0), ("ghost/A/100", 0), ("feature/x", 0), ("ghost/B/200", 0)]
    commits := [(0, commitInit)]
    head := "main"
    workdir := [("a.txt", "base")]
    nextId := 1 }

/-! ## Basic string lemmas -/

theorem data_append (a b : String) : (a ++ b).data = a.data ++ b.data := by
  cases a; cases b; rfl

theorem stringDataEq {a b : String} (h : a.data = b.data) : a = b := by
  cases a; cases b; exact congrArg String.mk h

theorem isPrefixOf_append_self (l t : List Char) : l.isPrefixOf (l ++ t) = true := by
  induction l with
  | nil => simp [List.isPrefixOf]
  | cons c cs ih => simp [List.isPrefixOf, ih]

theorem exists_of_isPrefixOf {l s : List Char} (h : l.isPrefixOf s = true) :
    ∃ t, s = l ++ t := by
  induction l generalizing s with
  | nil => exact ⟨s, rfl⟩
  | cons c cs ih =>
    cases s with
    | nil => simp [List.isPrefixOf] at h
    | cons b bs =>
      simp only [List.isPrefixOf, Bool.and_eq_true, beq_iff_eq] at h
      obtain ⟨rfl, h2⟩ := h
      obtain ⟨t, rfl⟩ := ih h2
      exact ⟨t, rfl⟩

theorem strStartsWith_append (p t : String) : strStartsWith (p ++ t) p = true := by
  simp only [strStartsWith, data_append]
  exact isPrefixOf_append_self p.data t.data

theorem head_of_strStartsWith {s p : String} {c : Char} {cs : List Char}
    (h : strStartsWith s p = true) (hp : p.data = c :: cs) :
    s.data.head? = some c := by
  obtain ⟨t, ht⟩ := exists_of_isPrefixOf (l := p.data) (s := s.data) h
  rw [ht, hp]
  rfl

theorem strStartsWith_false_of_head_ne {s p : String} {c c' : Char}
    (hs : s.data.head? = some c) (hp : p.data.head? = some c') (hne : c' ≠ c) :
    strStartsWith s p = false := by
  unfold strStartsWith
  cases hsd : s.data with
  | nil => rw [hsd] at hs; simp at hs
  | cons b bs =>
    cases hpd : p.data with
    | nil => rw [hpd] at hp; simp at hp
    | cons b' bs' =>
      rw [hsd] at hs
      rw [hpd] at hp
      simp only [List.head?, Option.some_inj] at hs hp
      subst hs
      subst hp
      simp [List.isPrefixOf, beq_eq_false_iff_ne.mpr hne]

theorem stripRefsHeads_refsHeads (s : String) :
    stripRefsHeads ("refs/heads/" ++ s) = s := by
  unfold stripRefsHeads
  rw [strStartsWith_append]
  have h : ("refs/heads/" ++ s).data.drop 11 = s.data := by
    rw [data_append]
    have hlen : ("refs/heads/".data).length = 11 := by decide
    rw [← hlen, List.drop_left]
  simp only [if_true]
  rw [h]

theorem head_g_of_is_ghost {g : String} (h : is_ghost g = true) : g.data.head? = some 'g' :=
  head_of_strStartsWith h
    (show "ghost/".data = 'g' :: ['h', 'o', 's', 't', '/'] by decide)

theorem is_ghost_ne_main {g : String} (h : is_ghost g = true) : g ≠ "main" := by
  intro he
  have hg := head_g_of_is_ghost h
  rw [he] at hg
  exact absurd hg (by decide)

theorem is_ghost_ne_master {g : String} (h : is_ghost g = true) : g ≠ "master" := by
  intro he
  have hg := head_g_of_is_ghost h
  rw [he] at hg
  exact absurd hg (by decide)

theorem stripRefsHeads_of_is_ghost {g : String} (h : is_ghost g = true) :
    stripRefsHeads g = g := by
  unfold stripRefsHeads
  have hf : strStartsWith g "refs/heads/" = false :=
    strStartsWith_false_of_head_ne (head_g_of_is_ghost h) (by decide)
      (by decide : 'r' ≠ 'g')
  rw [hf]
  simp

/-! ## Association-list lemmas for branch and commit lookup -/

theorem find?_name_filter_ne (bs : List (String × CommitId)) {tn g : String} (h : tn ≠ g) :
    (bs.filter (fun p => p.1 != g)).find? (fun p => p.1 == tn) =
      bs.find? (fun p => p.1 == tn) := by
  induction bs with
  | nil => rfl
  | cons p rest ih =>
    obtain ⟨n, v⟩ := p
    by_cases hg : n = g
    · subst hg
      have htn : (n == tn) = false := beq_eq_false_iff_ne.mpr (fun he => h (he.symm))
      simp [List.filter_cons, List.find?, bne_self_eq_false, htn, ih]
    · by_cases htn : n = tn
      · subst htn
        simp [List.filter_cons, List.find?, bne_iff_ne.mpr hg]
      · simp [List.filter_cons, List.find?, bne_iff_ne.mpr hg,
          beq_eq_false_iff_ne.mpr htn, ih]

theorem find?_name_filter_self (bs : List (String × CommitId)) (g : String) :
    (bs.filter (fun p => p.1 != g)).find? (fun p => p.1 == g) = none := by
  induction bs with
  | nil => rfl
  | cons p rest ih =>
    obtain ⟨n, v⟩ := p
    by_cases hg : n = g
    · subst hg
      simp [List.filter_cons, bne_self_eq_false, ih]
    · simp [List.filter_cons, List.find?, bne_iff_ne.mpr hg,
        beq_eq_false_iff_ne.mpr hg, ih]

theorem find?_updateBranch_self {bs : List (String × CommitId)} {tn : String} (id : CommitId)
    (h : (bs.find? (fun p => p.1 == tn)).isSome = true) :
    (updateBranch bs tn id).find? (fun p => p.1 == tn) = some (tn, id) := by
  induction bs with
  | nil => simp [List.find?] at h
  | cons p rest ih =>
    obtain ⟨n, v⟩ := p
    by_cases htn : n = tn
    · subst htn
      simp [updateBranch, List.find?]
    · have hne : (n == tn) = false := beq_eq_false_iff_ne.mpr htn
      simp only [List.find?, hne] at h
      simpa [updateBranch, List.find?, hne] using ih h

theorem find?_updateBranch_ne {bs : List (String × CommitId)} {tn g : String} (id : CommitId)
    (h : g ≠ tn) :
    (updateBranch bs tn id).find? (fun p => p.1 == g) = bs.find? (fun p => p.1 == g) := by
  induction bs with
  | nil => rfl
  | cons p rest ih =>
    obtain ⟨n, v⟩ := p
    by_cases htn : n = tn
    · subst htn
      have hg : (n == g) = false := beq_eq_false_iff_ne.mpr (fun he => h he.symm)
      simpa [updateBranch, List.find?, hg] using ih
    · by_cases hgg : n = g
      · subst hgg
        simp [updateBranch, List.find?, beq_eq_false_iff_ne.mpr htn]
      · simpa [updateBranch, List.find?, beq_eq_false_iff_ne.mpr htn,
          beq_eq_false_iff_ne.mpr hgg] using ih

theorem find?_append_of_none {α : Type} {l : List α} {p : α → Bool} (x : α)
    (h : l.find? p = none) (hx : p x = true) : (l ++ [x]).find? p = some x := by
  induction l with
  | nil => simp [List.find?, hx]
  | cons a as ih =>
    by_cases ha : p a
    · simp [List.find?, ha] at h
    · simp only [List.find?, ha] at h
      simpa [List.find?, ha] using ih h

/-! ## Decimal rendering: injectivity of `natRepr` and `intRepr` -/

theorem digitChar_inj_lt {a b : Nat} (ha : a < 10) (hb : b < 10)
    (h : Nat.digitChar a = Nat.digitChar b) : a = b := by
  have key : ∀ x : Fin 10, ∀ y : Fin 10,
      Nat.digitChar x.val = Nat.digitChar y.val → x = y := by decide
  exact congrArg Fin.val (key ⟨a, ha⟩ ⟨b, hb⟩ h)

theorem digitChar_ne_dash {a : Nat} (ha : a < 10) : Nat.digitChar a ≠ '-' := by
  have key : ∀ x : Fin 10, Nat.digitChar x.val ≠ '-' := by decide
  exact key ⟨a, ha⟩

theorem natDigitsRevGo_fuel : ∀ f₁ : Nat, ∀ f₂ n : Nat, n ≤ f₁ → n ≤ f₂ →
    natDigitsRevGo f₁ n = natDigitsRevGo f₂ n := by
  intro f₁
  induction f₁ with
  | zero =>
    intro f₂ n h1 _
    have : n = 0 := Nat.le_zero.mp h1
    subst this
    cases f₂ <;> rfl
  | succ k ih =>
    intro f₂ n h1 h2
    cases n with
    | zero => cases f₂ <;> rfl
    | succ m =>
      cases f₂ with
      | zero => exact absurd h2 (by omega)
      | succ k₂ =>
        show Nat.digitChar _ :: natDigitsRevGo k ((m + 1) / 10) =
          Nat.digitChar _ :: natDigitsRevGo k₂ ((m + 1) / 10)
        have hlt : (m + 1) / 10 < m + 1 := Nat.div_lt_self (Nat.succ_pos m) (by decide)
        rw [ih k₂ ((m + 1) / 10) (by omega) (by omega)]

theorem natDigitsRev_succ (n : Nat) :
    natDigitsRev (n + 1) = Nat.digitChar ((n + 1) % 10) :: natDigitsRev ((n + 1) / 10) := by
  show natDigitsRevGo (n + 1) (n + 1) = _
  show Nat.digitChar _ :: natDigitsRevGo n ((n + 1) / 10) = _
  unfold natDigitsRev
  have hlt : (n + 1) / 10 < n + 1 := Nat.div_lt_self (Nat.succ_pos n) (by decide)
  rw [natDigitsRevGo_fuel n ((n + 1) / 10) ((n + 1) / 10) (by omega) (by omega)]

theorem natDigitsRev_zero : natDigitsRev 0 = [] := rfl

theorem natDigitsRev_eq_nil_iff {n : Nat} : natDigitsRev n = [] ↔ n = 0 := by
  cases n with
  | zero => simp [natDigitsRev_zero]
  | succ m => simp [natDigitsRev_succ]

theorem natDigitsRev_inj : ∀ a b : Nat, natDigitsRev a = natDigitsRev b → a = b := by
  intro a
  induction a using Nat.strong_induction_on with
  | _ a ih =>
    intro b h
    cases a with
    | zero =>
      cases b with
      | zero => rfl
      | succ m =>
        rw [natDigitsRev_zero, natDigitsRev_succ] at h
        simp at h
    | succ k =>
      cases b with
      | zero =>
        rw [natDigitsRev_succ, natDigitsRev_zero] at h
        simp at h
      | succ m =>
        rw [natDigitsRev_succ, natDigitsRev_succ] at h
        injection h with h1 h2
        have hmod : (k + 1) % 10 = (m + 1) % 10 :=
          digitChar_inj_lt (Nat.mod_lt _ (by decide)) (Nat.mod_lt _ (by decide)) h1
        have hdiv : (k + 1) / 10 = (m + 1) / 10 :=
          ih ((k + 1) / 10) (Nat.div_lt_self (Nat.succ_pos k) (by decide)) ((m + 1) / 10) h2
        omega

theorem natDigitsRev_mem : ∀ n : Nat, ∀ c ∈ natDigitsRev n,
    ∃ k, k < 10 ∧ c = Nat.digitChar k := by
  intro n
  induction n using Nat.strong_induction_on with
  | _ n ih =>
    intro c hc
    cases n with
    | zero => simp [natDigitsRev_zero] at hc
    | succ m =>
      rw [natDigitsRev_succ] at hc
      rcases List.mem_cons.mp hc with h | h
      · exact ⟨(m + 1) % 10, Nat.mod_lt _ (by decide), h⟩
      · exact ih ((m + 1) / 10) (Nat.div_lt_self (Nat.succ_pos m) (by decide)) c h

theorem natRepr_data {n : Nat} (h : n ≠ 0) :
    (natRepr n).data = (natDigitsRev n).reverse := by
  unfold natRepr
  rw [if_neg h]

theorem natRepr_head_digit (n : Nat) :
    ∃ k, k < 10 ∧ (natRepr n).data.head? = some (Nat.digitChar k) := by
  by_cases h : n = 0
  · subst h
    exact ⟨0, by decide, by decide⟩
  · rw [natRepr_data h]
    cases hr : (natDigitsRev n).reverse with
    | nil =>
      have : natDigitsRev n = [] := by simpa using congrArg List.reverse hr
      exact absurd (natDigitsRev_eq_nil_iff.mp this) h
    | cons c cs =>
      have hcmem : c ∈ natDigitsRev n := by
        have hm : c ∈ (natDigitsRev n).reverse := by
          rw [hr]; exact List.mem_cons_self c cs
        exact List.mem_reverse.mp hm
      obtain ⟨k, hk, hck⟩ := natDigitsRev_mem n c hcmem
      exact ⟨k, hk, by rw [hck]; rfl⟩

theorem natRepr_head_ne_dash (n : Nat) : (natRepr n).data.head? ≠ some '-' := by
  obtain ⟨k, hk, hh⟩ := natRepr_head_digit n
  rw [hh]
  intro hcon
  exact digitChar_ne_dash hk (Option.some.inj hcon)

theorem natRepr_eq_zero_repr {b : Nat} (h : natRepr b = "0") : b = 0 := by
  by_cases hb : b = 0
  · exact hb
  · exfalso
    have hd := congrArg String.data h
    rw [natRepr_data hb] at hd
    have hrev : natDigitsRev b = ['0'] := by
      have := congrArg List.reverse hd
      simpa using this
    cases b with
    | zero => exact hb rfl
    | succ m =>
      rw [natDigitsRev_succ] at hrev
      injection hrev with h1 h2
      have hdiv : (m + 1) / 10 = 0 := natDigitsRev_eq_nil_iff.mp h2
      have hmod : (m + 1) % 10 = 0 := by
        have h0 : ('0' : Char) = Nat.digitChar 0 := by decide
        rw [h0] at h1
        exact digitChar_inj_lt (Nat.mod_lt _ (by decide)) (by decide) h1
      omega

theorem natRepr_inj {a b : Nat} (h : natRepr a = natRepr b) : a = b := by
  by_cases ha : a = 0
  · subst ha
    exact (natRepr_eq_zero_repr h.symm).symm
  · by_cases hb : b = 0
    · subst hb
      exact natRepr_eq_zero_repr h
    · have hd := congrArg String.data h
      rw [natRepr_data ha, natRepr_data hb] at hd
      exact natDigitsRev_inj a b (List.reverse_inj.mp hd)

theorem intRepr_inj {i j : Int} (h : intRepr i = intRepr j) : i = j := by
  unfold intRepr at h
  by_cases hi : i < 0 <;> by_cases hj : j < 0
  · rw [if_pos hi, if_pos hj] at h
    have hd := congrArg String.data h
    rw [data_append, data_append] at hd
    have habs : i.natAbs = j.natAbs :=
      natRepr_inj (stringDataEq (List.append_cancel_left hd))
    omega
  · exfalso
    rw [if_pos hi, if_neg hj] at h
    have hd := congrArg String.data h
    rw [data_append] at hd
    have hhead : (natRepr j.natAbs).data.head? = some '-' := by
      rw [← hd]; rfl
    exact natRepr_head_ne_dash _ hhead
  · exfalso
    rw [if_neg hi, if_pos hj] at h
    have hd := congrArg String.data h
    rw [data_append] at hd
    have hhead : (natRepr i.natAbs).data.head? = some '-' := by
      rw [hd]; rfl
    exact natRepr_head_ne_dash _ hhead
  · rw [if_neg hi, if_neg hj] at h
    have habs : i.natAbs = j.natAbs := natRepr_inj h
    omega

/-! ## Naming policy lemmas -/

theorem make_ghost_name_data (w : String) (t : Int) :
    (make_ghost_name w t).data =
      "ghost/".data ++ (w.data ++ ("/".data ++ (intRepr t).data)) := by
  simp [make_ghost_name, data_append, List.append_assoc]

theorem is_ghost_make_ghost_name (w : String) (t : Int) :
    is_ghost (make_ghost_name w t) = true := by
  unfold is_ghost strStartsWith
  rw [make_ghost_name_data]
  exact isPrefixOf_append_self _ _

theorem make_ghost_name_inj {w : String} {t1 t2 : Int}
    (h : make_ghost_name w t1 = make_ghost_name w t2) : t1 = t2 := by
  have hd := congrArg String.data h
  rw [make_ghost_name_data, make_ghost_name_data] at hd
  have h1 := List.append_cancel_left hd
  have h2 := List.append_cancel_left h1
  have h3 := List.append_cancel_left h2
  exact intRepr_inj (stringDataEq h3)

/-! ## Operation-level lemmas -/

theorem stripRefsHeads_main : stripRefsHeads "main" = "main" := by decide

theorem stripRefsHeads_master : stripRefsHeads "master" = "master" := by decide

theorem trunk_facts {r : Repo} {tn : String} {tip : CommitId} (h : trunkResolved r tn tip) :
    trunkObj r = Except.ok tip ∧ trunkName r = tn ∧ lookupBranch r tn = some tip ∧
      (tn = "main" ∨ tn = "master") := by
  rcases h with ⟨hm, rfl⟩ | ⟨hm, hms, rfl⟩
  · refine ⟨?_, ?_, hm, Or.inl rfl⟩
    · simp [trunkObj, revparseSingle, stripRefsHeads_main, hm]
    · simp [trunkName, revparseSingle, stripRefsHeads_main, hm, Except.isOk, Except.toBool]
  · refine ⟨?_, ?_, hms, Or.inr rfl⟩
    · simp [trunkObj, revparseSingle, stripRefsHeads_main, stripRefsHeads_master, hm, hms]
    · simp [trunkName, revparseSingle, stripRefsHeads_main, hm, Except.isOk, Except.toBool]

theorem merge_noTrunk {r : Repo} (mf : MergeFn) (g : String)
    (hm : lookupBranch r "main" = none) (hms : lookupBranch r "master" = none) :
    Commands.merge_ghost_branch mf r g = .error GitError.noTrunkError r := by
  unfold Commands.merge_ghost_branch
  simp [trunkObj, revparseSingle, stripRefsHeads_main, stripRefsHeads_master, hm, hms]

theorem lookupBranch_some {r : Repo} {name : String} {id : CommitId}
    (h : lookupBranch r name = some id) :
    r.branches.find? (fun p => p.1 == name) = some (name, id) := by
  unfold lookupBranch at h
  cases hf : r.branches.find? (fun p => p.1 == name) with
  | none => rw [hf] at h; simp at h
  | some p =>
    rw [hf] at h
    simp at h
    have hp := List.find?_some hf
    have hp1 : p.1 = name := beq_iff_eq.mp hp
    obtain ⟨n, v⟩ := p
    rw [show n = name from hp1, show v = id from h]

theorem lookupBranch_none {r : Repo} {name : String}
    (h : lookupBranch r name = none) :
    r.branches.find? (fun p => p.1 == name) = none := by
  unfold lookupBranch at h
  cases hf : r.branches.find? (fun p => p.1 == name) with
  | none => rfl
  | some p => rw [hf] at h; simp at h

theorem lookupCommit_some {r : Repo} {id : CommitId} {c : Commit}
    (h : lookupCommit r id = some c) :
    r.commits.find? (fun p => p.1 == id) = some (id, c) := by
  unfold lookupCommit at h
  cases hf : r.commits.find? (fun p => p.1 == id) with
  | none => rw [hf] at h; simp at h
  | some p =>
    rw [hf] at h
    simp at h
    have hp := List.find?_some hf
    have hp1 : p.1 = id := beq_iff_eq.mp hp
    obtain ⟨n, v⟩ := p
    rw [show n = id from hp1, show v = c from h]

theorem stripRefsHeads_rhMain : stripRefsHeads "refs/heads/main" = "main" := by decide

theorem stripRefsHeads_rhMaster : stripRefsHeads "refs/heads/master" = "master" := by decide

theorem merge_conflict {r : Repo} {tn : String} {tTip gTip : CommitId} {tc : Commit}
    {g : String} (mf : MergeFn)
    (htr : trunkResolved r tn tTip)
    (htc : lookupCommit r tTip = some tc)
    (hg : is_ghost g = true)
    (hgb : lookupBranch r g = some gTip)
    (hc : (mf tTip gTip).hasConflicts = true) :
    Commands.merge_ghost_branch mf r g =
      .error GitError.mergeConflictError { r with workdir := tc.tree, head := tn } := by
  have htc' := lookupCommit_some htc
  have hgb' := lookupBranch_some hgb
  have hstrip := stripRefsHeads_of_is_ghost hg
  rcases htr with ⟨hm, rfl⟩ | ⟨hm, hms, rfl⟩
  · have hm' := lookupBranch_some hm
    simp [Commands.merge_ghost_branch, trunkObj, trunkName, revparseSingle, lookupBranch,
      lookupCommit, checkoutTree, setHead, headCommit, stripRefsHeads_main,
      stripRefsHeads_master, stripRefsHeads_rhMain, stripRefsHeads_rhMaster, hstrip,
      hm', htc', hgb', hc, Except.isOk, Except.toBool]
  · have hm' := lookupBranch_none hm
    have hms' := lookupBranch_some hms
    simp [Commands.merge_ghost_branch, trunkObj, trunkName, revparseSingle, lookupBranch,
      lookupCommit, checkoutTree, setHead, headCommit, stripRefsHeads_main,
      stripRefsHeads_master, stripRefsHeads_rhMain, stripRefsHeads_rhMaster, hstrip,
      hm', hms', htc', hgb', hc, Except.isOk, Except.toBool]

theorem merge_ok {r : Repo} {tn : String} {tTip gTip : CommitId} {tc : Commit}
    {g : String} (mf : MergeFn)
    (htr : trunkResolved r tn tTip)
    (htc : lookupCommit r tTip = some tc)
    (hg : is_ghost g = true)
    (hgb : lookupBranch r g = some gTip)
    (hnc : (mf tTip gTip).hasConflicts = false) :
    Commands.merge_ghost_branch mf r g =
      .ok () { branches := (updateBranch r.branches tn r.nextId).filter (fun p => p.1 != g)
               commits := r.commits ++ [(r.nextId,
                 { parents := [tTip, gTip]
                   message := "[VIRAITH] Merge ghost branch " ++ g
                   tree := (mf tTip gTip).tree })]
               head := tn
               workdir := tc.tree
               nextId := r.nextId + 1 } := by
  have htc' := lookupCommit_some htc
  have hgb' := lookupBranch_some hgb
  have hstrip := stripRefsHeads_of_is_ghost hg
  rcases htr with ⟨hm, rfl⟩ | ⟨hm, hms, rfl⟩
  · have hm' := lookupBranch_some hm
    have hne : g ≠ "main" := is_ghost_ne_main hg
    have hdel : (updateBranch r.branches "main" r.nextId).find? (fun p => p.1 == g) =
        some (g, gTip) := by
      rw [find?_updateBranch_ne _ hne]
      exact hgb'
    simp [Commands.merge_ghost_branch, trunkObj, trunkName, revparseSingle, lookupBranch,
      lookupCommit, checkoutTree, setHead, headCommit, commitOnHead, deleteBranch,
      stripRefsHeads_main, stripRefsHeads_master, stripRefsHeads_rhMain,
      stripRefsHeads_rhMaster, hstrip, hm', htc', hgb', hnc, hdel,
      Except.isOk, Except.toBool]
  · have hm' := lookupBranch_none hm
    have hms' := lookupBranch_some hms
    have hne : g ≠ "master" := is_ghost_ne_master hg
    have hdel : (updateBranch r.branches "master" r.nextId).find? (fun p => p.1 == g) =
        some (g, gTip) := by
      rw [find?_updateBranch_ne _ hne]
      exact hgb'
    simp [Commands.merge_ghost_branch, trunkObj, trunkName, revparseSingle, lookupBranch,
      lookupCommit, checkoutTree, setHead, headCommit, commitOnHead, deleteBranch,
      stripRefsHeads_main, stripRefsHeads_master, stripRefsHeads_rhMain,
      stripRefsHeads_rhMaster, hstrip, hm', hms', htc', hgb', hnc, hdel,
      Except.isOk, Except.toBool]

theorem merge_ghost_missing {r : Repo} {tn : String} {tTip : CommitId} {tc : Commit}
    {g : String} (mf : MergeFn)
    (htr : trunkResolved r tn tTip)
    (htc : lookupCommit r tTip = some tc)
    (hg : is_ghost g = true)
    (hgb : lookupBranch r g = none) :
    Commands.merge_ghost_branch mf r g =
      .error (GitError.revisionNotFoundError g) { r with workdir := tc.tree, head := tn } := by
  have htc' := lookupCommit_some htc
  have hgb' := lookupBranch_none hgb
  have hstrip := stripRefsHeads_of_is_ghost hg
  rcases htr with ⟨hm, rfl⟩ | ⟨hm, hms, rfl⟩
  · have hm' := lookupBranch_some hm
    simp [Commands.merge_ghost_branch, trunkObj, trunkName, revparseSingle, lookupBranch,
      lookupCommit, checkoutTree, setHead, headCommit, stripRefsHeads_main,
      stripRefsHeads_master, stripRefsHeads_rhMain, stripRefsHeads_rhMaster, hstrip,
      hm', htc', hgb', Except.isOk, Except.toBool]
  · have hm' := lookupBranch_none hm
    have hms' := lookupBranch_some hms
    simp [Commands.merge_ghost_branch, trunkObj, trunkName, revparseSingle, lookupBranch,
      lookupCommit, checkoutTree, setHead, headCommit, stripRefsHeads_main,
      stripRefsHeads_master, stripRefsHeads_rhMain, stripRefsHeads_rhMaster, hstrip,
      hm', hms', htc', hgb', Except.isOk, Except.toBool]

theorem create_ok {r : Repo} {c : CommitId} {cd : Commit} (card_id : String) (now : Int)
    (hh : lookupBranch r r.head = some c)
    (hcd : lookupCommit r c = some cd)
    (hnew : lookupBranch r (make_ghost_name card_id now) = none) :
    Commands.create_ghost_branch r card_id now =
      .ok (make_ghost_name card_id now)
        { r with
          branches := r.branches ++ [(make_ghost_name card_id now, c)]
          workdir := cd.tree
          head := make_ghost_name card_id now } := by
  have hh' := lookupBranch_some hh
  have hcd' := lookupCommit_some hcd
  have hnew' := lookupBranch_none hnew
  have happ : (r.branches ++ [(make_ghost_name card_id now, c)]).find?
      (fun p => p.1 == make_ghost_name card_id now) =
      some (make_ghost_name card_id now, c) :=
    find?_append_of_none _ hnew' (by simp)
  have hstrip2 : stripRefsHeads ("refs/heads/" ++ make_ghost_name card_id now) =
      make_ghost_name card_id now := stripRefsHeads_refsHeads _
  simp only [make_ghost_name] at hnew' happ hstrip2 ⊢
  simp [Commands.create_ghost_branch, headCommit, createBranch, revparseSingle,
    lookupBranch, lookupCommit, checkoutTree, setHead, hh', hcd', hnew', happ, hstrip2]

theorem create_exists {r : Repo} {c d : CommitId} (card_id : String) (now : Int)
    (hh : lookupBranch r r.head = some c)
    (hex : lookupBranch r (make_ghost_name card_id now) = some d) :
    Commands.create_ghost_branch r card_id now =
      .error (GitError.branchExistsError (make_ghost_name card_id now)) r := by
  have hh' := lookupBranch_some hh
  have hex' := lookupBranch_some hex
  simp only [make_ghost_name] at hex' ⊢
  simp [Commands.create_ghost_branch, headCommit, createBranch, lookupBranch, hh', hex']

theorem collectGhosts_eq_filter (bs : List (String × CommitId)) :
    GhostMode.collectGhosts bs =
      (bs.map Prod.fst).filter (fun n => strStartsWith n "ghost/") := by
  induction bs with
  | nil => rfl
  | cons p rest ih =>
    obtain ⟨n, v⟩ := p
    by_cases h : strStartsWith n "ghost/" <;>
      simp [GhostMode.collectGhosts, List.filter_cons, h, ih]

theorem buildBranches_ghost_names (r : Repo) (bs : List (String × CommitId)) :
    ((Commands.buildBranches r bs).filter (fun b => b.is_ghost)).map (fun b => b.name) =
      GhostMode.collectGhosts bs := by
  induction bs with
  | nil => rfl
  | cons p rest ih =>
    obtain ⟨n, v⟩ := p
    by_cases h : strStartsWith n "ghost/" <;>
      simp [Commands.buildBranches, GhostMode.collectGhosts, List.filter_cons, h, ih]

theorem buildBranches_is_ghost_field (r : Repo) (bs : List (String × CommitId)) :
    ∀ b ∈ Commands.buildBranches r bs, b.is_ghost = is_ghost b.name := by
  induction bs with
  | nil =>
    intro b hb
    simp [Commands.buildBranches] at hb
  | cons p rest ih =>
    obtain ⟨n, v⟩ := p
    intro b hb
    simp only [Commands.buildBranches] at hb
    rcases List.mem_cons.mp hb with rfl | hb
    · rfl
    · exact ih b hb

theorem lookupCommit_none {r : Repo} {id : CommitId}
    (h : lookupCommit r id = none) :
    r.commits.find? (fun p => p.1 == id) = none := by
  unfold lookupCommit at h
  cases hf : r.commits.find? (fun p => p.1 == id) with
  | none => rfl
  | some p => rw [hf] at h; simp at h

theorem get_branch_diff_post (df : DiffFn) (r : Repo) (b1 b2 : String) :
    (Commands.get_branch_diff df r b1 b2).post = r := by
  unfold Commands.get_branch_diff
  split
  · rfl
  · split
    · rfl
    · split
      · rfl
      · split
        · rfl
        · rfl

/-! ## Claim theorems -/

/-- C1: when the trunk tip and the tip of an existing ghost branch three-way
merge without conflicts, `merge_ghost_branch` succeeds and afterwards the new
trunk tip is a merge commit whose parent list is exactly
`[old trunk tip, ghost tip]` in that order, whose message is the fixed
template `[VIRAITH] Merge ghost branch <name>`, the trunk reference has
advanced to this fresh commit, and the ghost branch reference no longer
exists — all in the one operation. -/
theorem C1_merge_success (r : Repo) (g tn : String) (tTip gTip : CommitId) (tc : Commit)
    (mf : MergeFn)
    (htr : trunkResolved r tn tTip)
    (htc : lookupCommit r tTip = some tc)
    (hfresh : lookupCommit r r.nextId = none)
    (hg : is_ghost g = true)
    (hgb : lookupBranch r g = some gTip)
    (hnc : (mf tTip gTip).hasConflicts = false) :
    ∃ R : Repo,
      Commands.merge_ghost_branch mf r g = .ok () R ∧
      lookupCommit R r.nextId = some
        { parents := [tTip, gTip]
          message := "[VIRAITH] Merge ghost branch " ++ g
          tree := (mf tTip gTip).tree } ∧
      lookupBranch R tn = some r.nextId ∧
      lookupBranch R g = none := by
  obtain ⟨_, _, hlk, hor⟩ := trunk_facts htr
  have htg : tn ≠ g := by
    rcases hor with rfl | rfl
    · exact fun he => is_ghost_ne_main hg he.symm
    · exact fun he => is_ghost_ne_master hg he.symm
  refine ⟨_, merge_ok mf htr htc hg hgb hnc, ?_, ?_, ?_⟩
  · unfold lookupCommit
    show ((r.commits ++ [_]).find? _).map _ = _
    rw [find?_append_of_none _ (lookupCommit_none hfresh) (by simp)]
    rfl
  · unfold lookupBranch
    show (((updateBranch r.branches tn r.nextId).filter _).find? _).map _ = _
    rw [find?_name_filter_ne _ htg,
      find?_updateBranch_self r.nextId (by rw [lookupBranch_some hlk]; rfl)]
    rfl
  · unfold lookupBranch
    show (((updateBranch r.branches tn r.nextId).filter _).find? _).map _ = _
    rw [find?_name_filter_self]
    rfl

/-- Witness for C1: the fixture repository with trunk `main` at commit 0 and
ghost branch `ghost/42/100` at commit 1, under a conflict-free merge
semantics. -/
theorem C1_merge_success_witness :
    ∃ R : Repo,
      Commands.merge_ghost_branch mfEmpty repoMain "ghost/42/100" = .ok () R ∧
      lookupCommit R repoMain.nextId = some
        { parents := [0, 1]
          message := "[VIRAITH] Merge ghost branch " ++ "ghost/42/100"
          tree := (mfEmpty 0 1).tree } ∧
      lookupBranch R "main" = some repoMain.nextId ∧
      lookupBranch R "ghost/42/100" = none :=
  C1_merge_success repoMain "ghost/42/100" "main" 0 1 commitInit mfEmpty
    (Or.inl ⟨by decide, rfl⟩) (by decide) (by decide) (by decide) (by decide) rfl

/-- C2: when the three-way merge reports conflicts, `merge_ghost_branch` fails
with the merge-conflict error and mutates nothing beyond the step-2 trunk
checkout: the branch references and the commit store are exactly as before, in
particular the trunk still points where it did and the ghost branch still
exists with its old tip. -/
theorem C2_merge_conflict_preserves (r : Repo) (g tn : String) (tTip gTip : CommitId)
    (tc : Commit) (mf : MergeFn)
    (htr : trunkResolved r tn tTip)
    (htc : lookupCommit r tTip = some tc)
    (hg : is_ghost g = true)
    (hgb : lookupBranch r g = some gTip)
    (hc : (mf tTip gTip).hasConflicts = true) :
    Commands.merge_ghost_branch mf r g =
      .error GitError.mergeConflictError { r with workdir := tc.tree, head := tn } ∧
    (Commands.merge_ghost_branch mf r g).post.branches = r.branches ∧
    (Commands.merge_ghost_branch mf r g).post.commits = r.commits ∧
    lookupBranch (Commands.merge_ghost_branch mf r g).post tn = lookupBranch r tn ∧
    lookupBranch (Commands.merge_ghost_branch mf r g).post g = some gTip := by
  have h := merge_conflict mf htr htc hg hgb hc
  refine ⟨h, ?_, ?_, ?_, ?_⟩
  · rw [h]
    rfl
  · rw [h]
    rfl
  · rw [h]
    rfl
  · rw [h]
    exact hgb

/-- Witness for C2: the same fixture under a conflicting merge semantics. -/
theorem C2_merge_conflict_preserves_witness :
    Commands.merge_ghost_branch mfConflict repoMain "ghost/42/100" =
      .error GitError.mergeConflictError
        { repoMain with workdir := commitInit.tree, head := "main" } ∧
    (Commands.merge_ghost_branch mfConflict repoMain "ghost/42/100").post.branches =
      repoMain.branches ∧
    (Commands.merge_ghost_branch mfConflict repoMain "ghost/42/100").post.commits =
      repoMain.commits ∧
    lookupBranch (Commands.merge_ghost_branch mfConflict repoMain "ghost/42/100").post
        "main" = lookupBranch repoMain "main" ∧
    lookupBranch (Commands.merge_ghost_branch mfConflict repoMain "ghost/42/100").post
        "ghost/42/100" = some 1 :=
  C2_merge_conflict_preserves repoMain "ghost/42/100" "main" 0 1 commitInit mfConflict
    (Or.inl ⟨by decide, rfl⟩) (by decide) (by decide) (by decide) rfl

/-- C3: trunk resolution prefers the branch `main`, falls back to `master`,
and when neither exists the merge fails with the no-trunk error leaving the
repository exactly as it was (nothing merged, nothing committed). -/
theorem C3_trunk_resolution (r : Repo) :
    (∀ m : CommitId, lookupBranch r "main" = some m →
      trunkObj r = Except.ok m ∧ trunkName r = "main") ∧
    (lookupBranch r "main" = none → ∀ m : CommitId, lookupBranch r "master" = some m →
      trunkObj r = Except.ok m ∧ trunkName r = "master") ∧
    (lookupBranch r "main" = none → lookupBranch r "master" = none →
      ∀ (mf : MergeFn) (g : String),
        Commands.merge_ghost_branch mf r g = .error GitError.noTrunkError r) := by
  refine ⟨?_, ?_, ?_⟩
  · intro m hm
    have h := trunk_facts (Or.inl ⟨hm, rfl⟩)
    exact ⟨h.1, h.2.1⟩
  · intro hm m hms
    have h := trunk_facts (Or.inr ⟨hm, hms, rfl⟩)
    exact ⟨h.1, h.2.1⟩
  · intro hm hms mf g
    exact merge_noTrunk mf g hm hms

/-- Witness for C3 at the three fixtures: trunk `main`, trunk `master`, and no
trunk at all. -/
theorem C3_trunk_resolution_witness :
    (trunkObj repoMain = Except.ok 0 ∧ trunkName repoMain = "main") ∧
    (trunkObj repoMaster = Except.ok 0 ∧ trunkName repoMaster = "master") ∧
    Commands.merge_ghost_branch mfEmpty repoNoTrunk "ghost/x/1" =
      .error GitError.noTrunkError repoNoTrunk :=
  ⟨(C3_trunk_resolution repoMain).1 0 (by decide),
   (C3_trunk_resolution repoMaster).2.1 (by decide) 0 (by decide),
   (C3_trunk_resolution repoNoTrunk).2.2 (by decide) (by decide) mfEmpty "ghost/x/1"⟩

/-- C4: with a resolvable HEAD, `create_ghost_branch` creates a branch named
by the naming policy at the commit HEAD resolves to, checks it out (working
tree replaced by that commit's tree, HEAD moved to the new branch) and
returns the name; if the derived name already exists it fails with the
branch-exists error and changes nothing. -/
theorem C4_create_ghost_branch (r : Repo) (card_id : String) (now : Int) (c : CommitId)
    (cd : Commit)
    (hh : lookupBranch r r.head = some c)
    (hcd : lookupCommit r c = some cd) :
    (lookupBranch r (make_ghost_name card_id now) = none →
      Commands.create_ghost_branch r card_id now =
        .ok (make_ghost_name card_id now)
          { r with
            branches := r.branches ++ [(make_ghost_name card_id now, c)]
            workdir := cd.tree
            head := make_ghost_name card_id now }) ∧
    (∀ d : CommitId, lookupBranch r (make_ghost_name card_id now) = some d →
      Commands.create_ghost_branch r card_id now =
        .error (GitError.branchExistsError (make_ghost_name card_id now)) r) :=
  ⟨fun hnew => create_ok card_id now hh hcd hnew,
   fun _ hex => create_exists card_id now hh hex⟩

/-- Witness for C4: creation succeeds on the fixture (HEAD on the ghost
branch, commit 1), and collides with the existing `ghost/A/100` on the
four-branch fixture. -/
theorem C4_create_ghost_branch_witness :
    Commands.create_ghost_branch repoMain "7" 99 =
      .ok (make_ghost_name "7" 99)
        { repoMain with
          branches := repoMain.branches ++ [(make_ghost_name "7" 99, 1)]
          workdir := commitWork.tree
          head := make_ghost_name "7" 99 } ∧
    Commands.create_ghost_branch repoFour "A" 100 =
      .error (GitError.branchExistsError (make_ghost_name "A" 100)) repoFour :=
  ⟨(C4_create_ghost_branch repoMain "7" 99 1 commitWork (by decide) (by decide)).1
      (by decide),
   (C4_create_ghost_branch repoFour "A" 100 0 commitInit (by decide) (by decide)).2
      0 (by decide)⟩

/-- C5 counterexample: on a repository with no trunk branch at all, merging a
nonexistent ghost branch name fails with the no-trunk error, not with the
revision-not-found error the claim promises for every repository. -/
theorem C5_counterexample :
    Commands.merge_ghost_branch mfEmpty repoNoTrunk "ghost/x/1" =
      .error GitError.noTrunkError repoNoTrunk ∧
    GitError.noTrunkError ≠ GitError.revisionNotFoundError "ghost/x/1" := by
  exact ⟨by decide, by decide⟩

/-- C5 (amended): on a repository that has a trunk branch, merging a ghost
branch name that does not resolve fails with the revision-not-found error for
that name, creating no commit and deleting no branch (only the step-2 trunk
checkout has happened). -/
theorem C5_ghost_missing (r : Repo) (g tn : String) (tTip : CommitId) (tc : Commit)
    (mf : MergeFn)
    (htr : trunkResolved r tn tTip)
    (htc : lookupCommit r tTip = some tc)
    (hg : is_ghost g = true)
    (hgb : lookupBranch r g = none) :
    Commands.merge_ghost_branch mf r g =
      .error (GitError.revisionNotFoundError g) { r with workdir := tc.tree, head := tn } ∧
    (Commands.merge_ghost_branch mf r g).post.commits = r.commits ∧
    (Commands.merge_ghost_branch mf r g).post.branches = r.branches := by
  have h := merge_ghost_missing mf htr htc hg hgb
  refine ⟨h, ?_, ?_⟩
  · rw [h]
    rfl
  · rw [h]
    rfl

/-- Witness for C5 (amended): merging the absent `ghost/nope/5` on the fixture
with trunk `main`. -/
theorem C5_ghost_missing_witness :
    Commands.merge_ghost_branch mfEmpty repoMain "ghost/nope/5" =
      .error (GitError.revisionNotFoundError "ghost/nope/5")
        { repoMain with workdir := commitInit.tree, head := "main" } ∧
    (Commands.merge_ghost_branch mfEmpty repoMain "ghost/nope/5").post.commits =
      repoMain.commits ∧
    (Commands.merge_ghost_branch mfEmpty repoMain "ghost/nope/5").post.branches =
      repoMain.branches :=
  C5_ghost_missing repoMain "ghost/nope/5" "main" 0 commitInit mfEmpty
    (Or.inl ⟨by decide, rfl⟩) (by decide) (by decide) (by decide)

/-- C6: `list_ghost_branches` returns exactly the local branch names starting
with `ghost/`, in repository enumeration order (it is the order-preserving
filter of the enumeration — a sublist, no sort applied); in particular on the
four-branch fixture it returns exactly the two ghost names. -/
theorem C6_list_ghost_branches (r : Repo) :
    GhostMode.list_ghost_branches r =
      .ok ((r.branches.map Prod.fst).filter (fun n => is_ghost n)) r ∧
    List.Sublist ((r.branches.map Prod.fst).filter (fun n => is_ghost n))
      (r.branches.map Prod.fst) ∧
    GhostMode.list_ghost_branches repoFour =
      .ok ["ghost/A/100", "ghost/B/200"] repoFour := by
  refine ⟨?_, List.filter_sublist _, by decide⟩
  unfold GhostMode.list_ghost_branches
  rw [collectGhosts_eq_filter]
  rfl

/-- C7: the naming convention is the single marker of ghostness: whenever
either implementation's `create_ghost_branch` succeeds, the name it returns is
exactly `make_ghost_name` of the work-item id and timestamp; the listing
filter of `list_ghost_branches` is exactly `is_ghost`; and every record
produced by `get_branches` carries `is_ghost` of its own name. -/
theorem C7_naming_convention :
    (∀ (r : Repo) (card_id : String) (now : Int) (name : String) (R : Repo),
      Commands.create_ghost_branch r card_id now = .ok name R →
        name = make_ghost_name card_id now) ∧
    (∀ (r : Repo) (card_id : String) (now : Int) (name : String) (R : Repo),
      GhostMode.create_ghost_branch r card_id now = .ok name R →
        name = make_ghost_name card_id now) ∧
    (∀ r : Repo, GhostMode.list_ghost_branches r =
      .ok ((r.branches.map Prod.fst).filter (fun n => is_ghost n)) r) ∧
    (∀ (r : Repo) (l : List GitBranch) (R : Repo),
      Commands.get_branches r = .ok l R →
        ∀ b ∈ l, b.is_ghost = is_ghost b.name) := by
  refine ⟨?_, ?_, ?_, ?_⟩
  · intro r card_id now name R h
    unfold Commands.create_ghost_branch at h
    simp only [] at h
    split at h
    · exact MResult.noConfusion h
    · split at h
      · exact MResult.noConfusion h
      · split at h
        · exact MResult.noConfusion h
        · split at h
          · exact MResult.noConfusion h
          · injection h with h1 h2
            exact h1.symm
  · intro r card_id now name R h
    unfold GhostMode.create_ghost_branch at h
    simp only [] at h
    split at h
    · exact MResult.noConfusion h
    · split at h
      · exact MResult.noConfusion h
      · split at h
        · exact MResult.noConfusion h
        · split at h
          · exact MResult.noConfusion h
          · injection h with h1 h2
            exact h1.symm
  · intro r
    unfold GhostMode.list_ghost_branches
    rw [collectGhosts_eq_filter]
    rfl
  · intro r l R h
    unfold Commands.get_branches at h
    injection h with h1 h2
    subst h1
    exact buildBranches_is_ghost_field r r.branches

/-- Witness for C7: the name returned by the concrete creation on the fixture
is the policy name, and the concrete `get_branches` records carry the policy
predicate. -/
theorem C7_naming_convention_witness :
    "ghost/7/99" = make_ghost_name "7" 99 ∧
    ∀ b ∈ [GitBranch.mk "main" false false (some "init"),
           GitBranch.mk "ghost/42/100" true true (some "work")],
      b.is_ghost = is_ghost b.name :=
  ⟨C7_naming_convention.1 repoMain "7" 99 "ghost/7/99"
    { repoMain with
      branches := repoMain.branches ++ [("ghost/7/99", 1)]
      workdir := commitWork.tree
      head := "ghost/7/99" } (by decide),
   C7_naming_convention.2.2.2 repoMain _ repoMain (by decide)⟩

/-- C8: the naming policy is injective in the timestamp for a fixed work item
(distinct timestamps give distinct names), every generated name satisfies the
ghost predicate, and `main` and `feature/x` do not. -/
theorem C8_naming_algebra :
    (∀ (w : String) (t1 t2 : Int), t1 < t2 →
      make_ghost_name w t1 ≠ make_ghost_name w t2) ∧
    (∀ (w : String) (t : Int), is_ghost (make_ghost_name w t) = true) ∧
    is_ghost "main" = false ∧
    is_ghost "feature/x" = false := by
  refine ⟨?_, is_ghost_make_ghost_name, by decide, by decide⟩
  intro w t1 t2 hlt he
  exact absurd (make_ghost_name_inj he) (by omega)

/-- Witness for C8 at concrete work item and timestamps. -/
theorem C8_naming_algebra_witness :
    make_ghost_name "42" 1 ≠ make_ghost_name "42" 2 ∧
    is_ghost (make_ghost_name "42" 1) = true :=
  ⟨C8_naming_algebra.1 "42" 1 2 (by decide), C8_naming_algebra.2.1 "42" 1⟩

/-- C9 counterexample: no caller-invocable operation of the engine satisfies
the spec's delete contract.  At the fixture whose only branch is `dev`, every
invocation family either leaves the branch in place (listing and diffing are
read-only, creation only adds a branch) or fails outright (merging, since the
fixture has no trunk), so none implements `delete`. -/
theorem C9_counterexample :
    ¬ ∃ (call : String → GitCall) (mf : MergeFn) (df : DiffFn),
        DeleteContract mf df call := by
  rintro ⟨call, mf, df, h⟩
  have hb := h repoNoTrunk "dev"
  have h1 := hb.1 (by decide)
  rcases hcall : call "dev" with _ | _ | ⟨card, now⟩ | ⟨b1, b2⟩ | g <;> rw [hcall] at h1
  · have hpost : (runCall mf df GitCall.getBranchesCall repoNoTrunk).2 = repoNoTrunk := rfl
    have hx := h1.2.1
    rw [hpost] at hx
    exact absurd hx (by decide)
  · have hpost : (runCall mf df GitCall.listGhostBranchesCall repoNoTrunk).2 = repoNoTrunk := rfl
    have hx := h1.2.1
    rw [hpost] at hx
    exact absurd hx (by decide)
  · have hg : is_ghost (make_ghost_name card now) = true := is_ghost_make_ghost_name card now
    have hgd := head_g_of_is_ghost hg
    have hnedev : ("dev" : String) ≠ make_ghost_name card now := by
      intro he
      rw [← he] at hgd
      exact absurd hgd (by decide)
    have hnew : lookupBranch repoNoTrunk (make_ghost_name card now) = none := by
      unfold lookupBranch
      simp [repoNoTrunk, List.find?, beq_eq_false_iff_ne.mpr hnedev]
    have hh : lookupBranch repoNoTrunk repoNoTrunk.head = some 0 := by decide
    have hcd : lookupCommit repoNoTrunk 0 = some commitInit := by decide
    have hcreate := create_ok card now hh hcd hnew
    have hpost : (runCall mf df (GitCall.createGhostBranchCall card now) repoNoTrunk).2.branches =
        repoNoTrunk.branches ++ [(make_ghost_name card now, 0)] := by
      simp [runCall, hcreate, MResult.post]
    have hx := h1.2.1
    rw [hpost] at hx
    exact absurd hx (by simp [repoNoTrunk])
  · have hpost : (runCall mf df (GitCall.getBranchDiffCall b1 b2) repoNoTrunk).2 =
        repoNoTrunk := by
      simp [runCall, get_branch_diff_post]
    have hx := h1.2.1
    rw [hpost] at hx
    exact absurd hx (by decide)
  · have hm := merge_noTrunk mf g
      (show lookupBranch repoNoTrunk "main" = none by decide)
      (show lookupBranch repoNoTrunk "master" = none by decide)
    have hsucc := h1.1
    simp [runCall, hm, MResult.succeeded] at hsucc

/-- C9 (amended): the engine exposes no caller-invocable delete operation; the
reference-deletion primitive it uses (the merge cleanup step `find_branch` +
`Branch::delete`) removes exactly the named branch reference, touching neither
the working tree nor the commit store, succeeds when the branch exists and
fails when it does not. -/
theorem C9_delete_primitive (r : Repo) (name : String) :
    (∀ id : CommitId, lookupBranch r name = some id →
      deleteBranch r name =
        .ok () { r with branches := r.branches.filter (fun p => p.1 != name) }) ∧
    (lookupBranch r name = none →
      deleteBranch r name = .error (GitError.revisionNotFoundError name) r) := by
  constructor
  · intro id h
    unfold deleteBranch
    rw [h]
  · intro h
    unfold deleteBranch
    rw [h]

/-- Witness for C9 (amended): deleting the existing ghost branch of the
fixture, and deleting a missing branch. -/
theorem C9_delete_primitive_witness :
    deleteBranch repoMain "ghost/42/100" =
      .ok () { repoMain with
               branches := repoMain.branches.filter (fun p => p.1 != "ghost/42/100") } ∧
    deleteBranch repoMain "nope" = .error (GitError.revisionNotFoundError "nope") repoMain :=
  ⟨(C9_delete_primitive repoMain "ghost/42/100").1 1 (by decide),
   (C9_delete_primitive repoMain "nope").2 (by decide)⟩

/-- C10 counterexample: the listing pair is not observationally equivalent —
on the fixture with trunk `main` and one ghost branch, `get_branches` reports
every local branch (projected to its name sequence here, the most charitable
comparison) while `list_ghost_branches` returns only the ghost names. -/
theorem C10_counterexample :
    (Commands.get_branches repoMain).map (fun l => l.map (fun b => b.name)) ≠
      GhostMode.list_ghost_branches repoMain := by decide

/-- C10 (amended): the creation, merge and diff pairs of the two
implementations are extensionally equal (same result, same error, same
post-state, given the same repository, timestamp and library semantics), and
the listing pair agrees exactly on ghost branches: filtering the
`get_branches` records by their ghost flag and projecting to names yields
`list_ghost_branches`. -/
theorem C10_equivalence :
    (∀ (r : Repo) (card_id : String) (now : Int),
      Commands.create_ghost_branch r card_id now =
        GhostMode.create_ghost_branch r card_id now) ∧
    (∀ (mf : MergeFn) (r : Repo) (g : String),
      Commands.merge_ghost_branch mf r g = GhostMode.merge_to_main mf r g) ∧
    (∀ (df : DiffFn) (r : Repo) (b1 b2 : String),
      Commands.get_branch_diff df r b1 b2 = GhostMode.get_diff df r b1 b2) ∧
    (∀ r : Repo,
      (Commands.get_branches r).map
          (fun l => (l.filter (fun b => b.is_ghost)).map (fun b => b.name)) =
        GhostMode.list_ghost_branches r) := by
  refine ⟨fun _ _ _ => rfl, fun _ _ _ => rfl, fun _ _ _ _ => rfl, ?_⟩
  intro r
  simp [Commands.get_branches, GhostMode.list_ghost_branches, MResult.map,
    buildBranches_ghost_names]
